import Mathlib

/-!
Shallow embedding of the farmhand simulation core (crop lifecycle, market
fluctuation, cow genetics and economy, field range fold, memoization cache,
inventory capacity, purchase handler), with theorems checking the
specification's claims against the embedded code.

Conventions of the embedding:
* JavaScript numbers are modelled as rationals (`ℚ`); where the code can
  produce the IEEE value `Infinity` the result type is `JSNum`, the JS number
  domain restricted to the rationals plus the distinguished value `Infinity`.
* JavaScript objects used as string-keyed maps are modelled as association
  lists (`List (key × value)`) in insertion order, or as membership functions
  when only truthiness of the stored values is ever observed.
* Randomness (`Math.random()` draws, random choices from lists) is passed in
  explicitly as function arguments; `Math.random()` draws carry the contract
  `0 ≤ r < 1` as hypotheses where a claim depends on it.
* The item catalog (`itemsMap`, `./data/*`) and the numeric constants
  (`./constants`) are external to the embedded sources, so they appear as
  parameters of the definitions and are universally quantified in theorems.
-/

namespace Farmhand

/-- JS number domain as used by the embedded code: a rational, or the
distinguished IEEE value `Infinity` (written `JSNum.inf`). -/
inductive JSNum where
  | num (q : ℚ)
  | inf
  deriving DecidableEq, Repr

/-- JS `x > 0` on a `JSNum` (`Infinity > 0` is `true` in JS). -/
def JSNum.isPos : JSNum → Bool
  | .num q => decide (0 < q)
  | .inf => true

/-- JS `Math.round`: round half toward positive infinity. -/
def jsRound (q : ℚ) : ℤ := Int.floor (q + 1 / 2)

/-- `clampNumber(num, min, max)` from src/utils.js:
`num <= min ? min : num >= max ? max : num`. -/
def clampNumber (num min max : ℚ) : ℚ :=
  if num ≤ min then min else if num ≥ max then max else num

/-- `scaleNumber(value, min, max, baseMin, baseMax)` from src/utils.js:
`((value - min) * (baseMax - baseMin)) / (max - min) + baseMin`. -/
def scaleNumber (value min max baseMin baseMax : ℚ) : ℚ :=
  (value - min) * (baseMax - baseMin) / (max - min) + baseMin

/-! ## Crop lifecycle (src/utils.js: getLifeStageRange, getCropLifeStage) -/

/-- The crop life stage enum (`cropLifeStage` in src/enums.js); the enum
values are distinct truthy strings in the source. -/
inductive CropLifeStage where
  | SEED
  | GROWING
  | GROWN
  deriving DecidableEq, Repr

/-- A crop item's `cropTimetable`: days to spend in the SEED stage and in the
GROWING stage. -/
structure CropTimetable where
  seed : ℕ
  growing : ℕ
  deriving DecidableEq, Repr

/-- A crop occupying a plot (`farmhand.crop`): plot content plus growth
state. `daysWatered` is fractional (fertilizer adds a fractional bonus). -/
structure Crop where
  itemId : String
  daysOld : ℚ
  daysWatered : ℚ
  isFertilized : Bool
  wasWateredToday : Bool

/-- `getLifeStageRange(cropTimetable)` from src/utils.js: concatenates
`cropTimetable[SEED]` copies of SEED and then `cropTimetable[GROWING]` copies
of GROWING (a reduce over `[SEED, GROWING]` appending `Array(n).fill(stage)`). -/
def getLifeStageRange (cropTimetable : CropTimetable) : List CropLifeStage :=
  List.replicate cropTimetable.seed .SEED ++
    List.replicate cropTimetable.growing .GROWING

/-- `getCropLifeStage({ itemId, daysWatered })` from src/utils.js:
`getLifeStageRange(itemsMap[itemId].cropTimetable)[Math.floor(daysWatered)] || GROWN`.
An out-of-bounds (or negative) index yields `undefined`, which the `||`
turns into GROWN; the in-range entries are truthy strings. The external
catalog lookup `itemsMap[itemId].cropTimetable` is the parameter
`cropTimetableOf`. -/
def getCropLifeStage (cropTimetableOf : String → CropTimetable) (crop : Crop) :
    CropLifeStage :=
  let i : ℤ := Int.floor crop.daysWatered
  if 0 ≤ i then
    (getLifeStageRange (cropTimetableOf crop.itemId)).getD i.toNat .GROWN
  else
    .GROWN

/-! ## Market fluctuation (src/utils.js: generateValueAdjustments) -/

/-- The slice of a catalog item (`farmhand.item`) relevant to pricing:
its base `value` and its `doesPriceFluctuate` flag. -/
structure MarketItem where
  value : ℚ
  doesPriceFluctuate : Bool
  deriving DecidableEq, Repr

/-- Lookup in an insertion-ordered association list modelling a JS object;
a key assigned later shadows an earlier one, so lookup scans for the last
write, which the embedding keeps at the front or as the only occurrence. -/
def lookupKey {κ β : Type} [DecidableEq κ] : List (κ × β) → κ → Option β
  | [], _ => none
  | kv :: rest, k => if k = kv.1 then some kv.2 else lookupKey rest k

/-- The reducer callback of `generateValueAdjustments` from src/utils.js:
for a fluctuating item, write 0.5 on a price crash, else 1.5 on a price
surge, else `Math.random() + 0.5`; otherwise leave the accumulator alone.
`priceCrashes`/`priceSurges` give the truthiness of `priceCrashes[key]` /
`priceSurges[key]`; `random` gives the `Math.random()` draw made for a key. -/
def vaStep (priceCrashes priceSurges : String → Bool) (random : String → ℚ)
    (acc : List (String × ℚ)) (kv : String × MarketItem) : List (String × ℚ) :=
  if kv.2.doesPriceFluctuate then
    if priceCrashes kv.1 then acc ++ [(kv.1, 0.5)]
    else if priceSurges kv.1 then acc ++ [(kv.1, 1.5)]
    else acc ++ [(kv.1, random kv.1 + 0.5)]
  else acc

/-- `generateValueAdjustments(priceCrashes, priceSurges)` from src/utils.js:
a reduce of `vaStep` over `Object.keys(itemsMap)` starting from the empty
object. The external catalog `itemsMap` is passed as an association list. -/
def generateValueAdjustments (catalog : List (String × MarketItem))
    (priceCrashes priceSurges : String → Bool) (random : String → ℚ) :
    List (String × ℚ) :=
  catalog.foldl (vaStep priceCrashes priceSurges random) []

/-- The value `generateValueAdjustments` stores for a fluctuating key. -/
def vaValue (priceCrashes priceSurges : String → Bool) (random : String → ℚ)
    (k : String) : ℚ :=
  if priceCrashes k then 0.5 else if priceSurges k then 1.5 else random k + 0.5

/-! ## Cow genetics and economy (src/utils.js: generateCow,
generateOffspringCow, getCowWeight, getCowValue, getCowMilkRate) -/

/-- The cow gender enum (`genders` in src/enums.js). -/
inductive Gender where
  | MALE
  | FEMALE
  deriving DecidableEq, Repr

/-- A cow record (`farmhand.cow`). `colorsInBloodline` is a JS object whose
keys are colors mapped to `true`; it is modelled as its membership function. -/
structure Cow where
  baseWeight : ℚ
  color : String
  colorsInBloodline : String → Bool
  daysOld : ℚ
  daysSinceMilking : ℚ
  gender : Gender
  happiness : ℚ
  happinessBoostsToday : ℚ
  id : String
  isUsingHuggingMachine : Bool
  name : String
  weightMultiplier : ℚ

/-- The `options` argument of `generateCow`: the JS object spread
`{ ...defaults, ...options }` makes every present option override the
corresponding generated field. -/
structure CowOptions where
  baseWeight : Option ℚ
  color : Option String
  colorsInBloodline : Option (String → Bool)
  daysOld : Option ℚ
  daysSinceMilking : Option ℚ
  gender : Option Gender
  happiness : Option ℚ
  happinessBoostsToday : Option ℚ
  id : Option String
  isUsingHuggingMachine : Option Bool
  name : Option String
  weightMultiplier : Option ℚ

/-- The empty `options` object (`generateCow()`s default `{}`). -/
def noCowOptions : CowOptions :=
  ⟨none, none, none, none, none, none, none, none, none, none, none, none⟩

/-- The random draws `generateCow` makes: `chooseRandom` over the genders and
over the color palette, the `Math.random()` draw in the weight formula, the
`createUniqueId()` result, and `chooseRandom(fruitNames)`. -/
structure CowRandom where
  gender : Gender
  weightDraw : ℚ
  color : String
  id : String
  name : String

/-- The numeric constants of src/constants.js used by the cow engine;
the constants file is external to the embedded sources, so the constants
are carried as parameters. -/
structure CowConstants where
  COW_STARTING_WEIGHT_BASE : ℚ
  COW_STARTING_WEIGHT_VARIANCE : ℚ
  MALE_COW_WEIGHT_MULTIPLIER : ℚ
  COW_MAXIMUM_AGE_VALUE_DROPOFF : ℚ
  COW_MAXIMUM_VALUE_MULTIPLIER : ℚ
  COW_MINIMUM_VALUE_MULTIPLIER : ℚ
  COW_WEIGHT_MULTIPLIER_MINIMUM : ℚ
  COW_WEIGHT_MULTIPLIER_MAXIMUM : ℚ
  COW_MILK_RATE_SLOWEST : ℚ
  COW_MILK_RATE_FASTEST : ℚ

/-- `generateCow(options)` from src/utils.js. Gender and color default to
random choices (`options.gender || chooseRandom(...)`); `baseWeight` is the
rounded weight formula; `colorsInBloodline` starts as the singleton set of
the cow's own color; the trailing `...options` spread overrides any field
present in `options`. -/
def generateCow (C : CowConstants) (r : CowRandom) (options : CowOptions) : Cow :=
  let gender := options.gender.getD r.gender
  let baseWeight : ℚ :=
    (jsRound (C.COW_STARTING_WEIGHT_BASE *
        (if gender = Gender.MALE then C.MALE_COW_WEIGHT_MULTIPLIER else 1) -
      C.COW_STARTING_WEIGHT_VARIANCE +
      r.weightDraw * (C.COW_STARTING_WEIGHT_VARIANCE * 2)) : ℤ)
  let color := options.color.getD r.color
  { baseWeight := options.baseWeight.getD baseWeight
    color := color
    colorsInBloodline := options.colorsInBloodline.getD (fun c => decide (c = color))
    daysOld := options.daysOld.getD 1
    daysSinceMilking := options.daysSinceMilking.getD 0
    gender := gender
    happiness := options.happiness.getD 0
    happinessBoostsToday := options.happinessBoostsToday.getD 0
    id := options.id.getD r.id
    isUsingHuggingMachine := options.isUsingHuggingMachine.getD false
    name := options.name.getD r.name
    weightMultiplier := options.weightMultiplier.getD 1 }

/-- `generateOffspringCow(cow1, cow2)` from src/utils.js. When both cows
share a gender the source throws `new Error(...)` whose message interpolates
the JSON of both cows; the embedding returns `Except.error (cow1, cow2)`,
carrying both offending records. Otherwise it calls `generateCow` with the
father's color, the merged bloodline object
`{ [male.color]: true, [female.color]: true, ...male.colorsInBloodline,
...female.colorsInBloodline }` (modelled as the union of the four membership
sets, all stored values being `true`), and the mean of the parents'
`baseWeight`. -/
def generateOffspringCow (C : CowConstants) (r : CowRandom) (cow1 cow2 : Cow) :
    Except (Cow × Cow) Cow :=
  if cow1.gender = cow2.gender then
    .error (cow1, cow2)
  else
    let maleCow := if cow1.gender = Gender.MALE then cow1 else cow2
    let femaleCow := if cow1.gender = Gender.MALE then cow2 else cow1
    .ok (generateCow C r
      { noCowOptions with
        color := some maleCow.color
        colorsInBloodline := some (fun c =>
          decide (c = maleCow.color) || decide (c = femaleCow.color) ||
            maleCow.colorsInBloodline c || femaleCow.colorsInBloodline c)
        baseWeight := some ((maleCow.baseWeight + femaleCow.baseWeight) / 2) })

/-- `getCowWeight({ baseWeight, weightMultiplier })` from src/utils.js:
`Math.round(baseWeight * weightMultiplier)`. -/
def getCowWeight (cow : Cow) : ℚ :=
  (jsRound (cow.baseWeight * cow.weightMultiplier) : ℤ)

/-- The age multiplier inside `getCowValue`: the inverted linear scale of
`daysOld` from `[1, COW_MAXIMUM_AGE_VALUE_DROPOFF]` onto
`[COW_MAXIMUM_VALUE_MULTIPLIER, COW_MINIMUM_VALUE_MULTIPLIER]`, clamped. -/
def cowValueFactor (C : CowConstants) (daysOld : ℚ) : ℚ :=
  clampNumber
    (scaleNumber daysOld 1 C.COW_MAXIMUM_AGE_VALUE_DROPOFF
      C.COW_MAXIMUM_VALUE_MULTIPLIER C.COW_MINIMUM_VALUE_MULTIPLIER)
    C.COW_MINIMUM_VALUE_MULTIPLIER C.COW_MAXIMUM_VALUE_MULTIPLIER

/-- `getCowValue(cow)` from src/utils.js: `getCowWeight(cow)` times the
clamped inverted age scale. -/
def getCowValue (C : CowConstants) (cow : Cow) : ℚ :=
  getCowWeight cow * cowValueFactor C cow.daysOld

/-- `getCowMilkRate(cow)` from src/utils.js: for a female cow, the linear
scale of `weightMultiplier` from the configured weight-multiplier band onto
the slowest/fastest milk-rate band; for any other cow, the JS number
`Infinity`. -/
def getCowMilkRate (C : CowConstants) (cow : Cow) : JSNum :=
  if cow.gender = Gender.FEMALE then
    .num (scaleNumber cow.weightMultiplier C.COW_WEIGHT_MULTIPLIER_MINIMUM
      C.COW_WEIGHT_MULTIPLIER_MAXIMUM C.COW_MILK_RATE_SLOWEST
      C.COW_MILK_RATE_FASTEST)
  else
    .inf

/-- Concrete constants for witnesses (the embedding treats the real values
of src/constants.js as external). -/
def sampleCowConstants : CowConstants :=
  ⟨1800, 200, 6/5, 100, 3/2, 1/2, 1/2, 3/2, 84, 12⟩

/-- Concrete random draws for witnesses. -/
def sampleCowRandom : CowRandom := ⟨Gender.FEMALE, 1/2, "brown", "id-0", "Apple"⟩

/-- A concrete male cow for witnesses. -/
def sampleMaleCow : Cow :=
  ⟨420, "white", fun c => decide (c = "white"), 3, 0, Gender.MALE, 1/2, 0,
    "id-m", false, "Bull", 1⟩

/-- A concrete female cow for witnesses. -/
def sampleFemaleCow : Cow :=
  ⟨380, "orange", fun c => decide (c = "orange"), 4, 0, Gender.FEMALE, 1/2, 0,
    "id-f", false, "Daisy", 1⟩

/-- The offspring of the two sample cows. -/
def sampleOffspring : Cow :=
  (generateOffspringCow sampleCowConstants sampleCowRandom sampleMaleCow
      sampleFemaleCow).toOption.getD sampleMaleCow

/-! ## Field range fold (src/game-logic/reducers/forRange.js) -/

/-- The integers from `a` to `b` inclusive, ascending (the index sequence of
a JS `for (let i = a; i <= b; i++)` loop); empty when `b < a`. -/
def rangeInts (a b : ℤ) : List ℤ :=
  (List.range (b + 1 - a).toNat).map (fun (i : ℕ) => a + (i : ℤ))

/-- A `farmhand.state` as `forRange` uses it: the `field` grid plus the rest
of the state, abstracted as `rest` (the cell function may read and update
the whole state). -/
structure FieldState (α σ : Type) where
  field : List (List α)
  rest : σ
  deriving Repr

/-- `forRange(state, fieldFn, rangeRadius, plotX, plotY, ...args)` from
src/game-logic/reducers/forRange.js: clamps the range square to the field
bounds (`startX = max(plotX - rangeRadius, 0)`,
`endX = min(plotX + rangeRadius, state.field[0].length - 1)`, likewise for
y), then reassigns `state = fieldFn(state, x, y)` in a y-outer, x-inner
double loop. The extra `...args` are closed over by `fieldFn`. -/
def forRange {α σ : Type} (state : FieldState α σ)
    (fieldFn : FieldState α σ → ℤ → ℤ → FieldState α σ)
    (rangeRadius plotX plotY : ℤ) : FieldState α σ :=
  let startX := max (plotX - rangeRadius) 0
  let endX := min (plotX + rangeRadius) (((state.field.headD []).length : ℤ) - 1)
  let startY := max (plotY - rangeRadius) 0
  let endY := min (plotY + rangeRadius) ((state.field.length : ℤ) - 1)
  (rangeInts startY endY).foldl
    (fun s y => (rangeInts startX endX).foldl (fun s2 x => fieldFn s2 x y) s)
    state

/-- Specification-level enumeration for `forRange`: the coordinates of the
`(2·radius+1)²` square centered at `(cx, cy)` intersected with the `w × h`
field bounds, in row-major order (x ascending within each y, y ascending). -/
def squareCoords (w h rangeRadius cx cy : ℤ) : List (ℤ × ℤ) :=
  ((rangeInts 0 (h - 1)).filter
      (fun t => decide (cy - rangeRadius ≤ t ∧ t ≤ cy + rangeRadius))).flatMap
    (fun y =>
      ((rangeInts 0 (w - 1)).filter
          (fun t => decide (cx - rangeRadius ≤ t ∧ t ≤ cx + rangeRadius))).map
        (fun x => (x, y)))

/-- A concrete 5×5 field of empty plots for witnesses. -/
def field5x5 : List (List (Option Unit)) :=
  List.replicate 5 (List.replicate 5 none)

/-- A cell function that records each visited coordinate in `rest`. -/
def logStep (s : FieldState (Option Unit) (List (ℤ × ℤ))) (x y : ℤ) :
    FieldState (Option Unit) (List (ℤ × ℤ)) :=
  ⟨s.field, s.rest ++ [(x, y)]⟩

/-! ## Memoization cache (src/utils.js: MemoizeCache, memoize) -/

/-- `MemoizeCache.set(key, value)` from src/utils.js: when
`Object.keys(this.cache).length > MEMOIZE_CACHE_CLEAR_THRESHOLD` the whole
cache object is replaced by `{}` before the write, so the result is the
singleton cache; otherwise the entry is added. The cache object is modelled
as an association list whose keys are distinct (`set` is only reached on a
cache miss), so the stored-key count is the list length. `T` is the external
constant `MEMOIZE_CACHE_CLEAR_THRESHOLD`. -/
def cacheSet {α β : Type} (T : ℕ) (c : List (α × β)) (k : α) (v : β) :
    List (α × β) :=
  if T < c.length then [(k, v)] else (k, v) :: c

/-- One call of a `memoize(fn)`-wrapped function (fast-memoize's strategy
over `MemoizeCache`): if `cache.has(key)` return `cache.get(key)`, else
compute `fn`, `cache.set` the result, and return it, also returning the
updated cache. The argument serializer is injective (JSON of the argument
list), so cache keys are modelled as the arguments themselves. -/
def memoApply {α β : Type} [DecidableEq α] (fn : α → β) (T : ℕ)
    (c : List (α × β)) (a : α) : β × List (α × β) :=
  match lookupKey c a with
  | some v => (v, c)
  | none => (fn a, cacheSet T c a (fn a))

/-- A sequence of calls to a `memoize(fn)`-wrapped function, threading the
cache; returns the list of results and the final cache. -/
def runMemo {α β : Type} [DecidableEq α] (fn : α → β) (T : ℕ) :
    List (α × β) → List α → List β × List (α × β)
  | c, [] => ([], c)
  | c, a :: as =>
    let r := memoApply fn T c a
    let rest := runMemo fn T r.2 as
    (r.1 :: rest.1, rest.2)

/-- A cache state is consistent with `fn` when every stored value is the
function's value at its key. -/
def CacheOK {α β : Type} [DecidableEq α] (fn : α → β) (c : List (α × β)) : Prop :=
  ∀ k v, lookupKey c k = some v → v = fn k

/-! ## Inventory capacity (src/utils.js: inventorySpaceConsumed,
inventorySpaceRemaining, doesInventorySpaceRemain) -/

/-- An inventory entry (`farmhand.item` as stored in the inventory):
`{ id, quantity }`. -/
structure InventoryEntry where
  id : String
  quantity : ℚ
  deriving DecidableEq, Repr

/-- `inventorySpaceConsumed(inventory)` from src/utils.js:
`inventory.reduce((sum, { quantity }) => sum + quantity, 0)`. -/
def inventorySpaceConsumed (inventory : List InventoryEntry) : ℚ :=
  inventory.foldl (fun sum e => sum + e.quantity) 0

/-- The `{ inventory, inventoryLimit }` slice of `farmhand.state`. -/
structure InventoryState where
  inventory : List InventoryEntry
  inventoryLimit : ℚ

/-- `inventorySpaceRemaining({ inventory, inventoryLimit })` from
src/utils.js: the JS number `Infinity` when the limit is the sentinel `-1`,
else `inventoryLimit - inventorySpaceConsumed(inventory)`. -/
def inventorySpaceRemaining (s : InventoryState) : JSNum :=
  if s.inventoryLimit = -1 then .inf
  else .num (s.inventoryLimit - inventorySpaceConsumed s.inventory)

/-- `doesInventorySpaceRemain(state)` from src/utils.js:
`inventorySpaceRemaining(state) > 0` (true for `Infinity`). -/
def doesInventorySpaceRemain (s : InventoryState) : Bool :=
  (inventorySpaceRemaining s).isPos

/-! ## Purchase handler (src/unnamed/part_001: handleItemPurchase) -/

/-- An item as `handleItemPurchase` destructures it:
`const { id, value = 0 } = item` — `value` may be absent, defaulting to 0. -/
structure PurchaseItem where
  id : String
  value : Option ℚ

/-- The `{ inventory, money }` slice of the component state the purchase
handler reads and writes. -/
structure PurchaseState where
  inventory : List InventoryEntry
  money : ℚ

/-- The inventory update of `handleItemPurchase`:
`inventory.findIndex(({ id: itemId }) => id === itemId)` and then, when the
index is found (`~currentItemSlot`), increment that entry's quantity,
otherwise `inventory.push({ id, quantity: 1 })` — i.e. the first entry with
the item's id gets `quantity + 1`, and a missing item appends a fresh
quantity-1 entry at the end. -/
def purchaseInto (id : String) : List InventoryEntry → List InventoryEntry
  | [] => [{ id := id, quantity := 1 }]
  | e :: rest =>
    if e.id = id then { e with quantity := e.quantity + 1 } :: rest
    else e :: purchaseInto id rest

/-- `handleItemPurchase(item)` from src/unnamed/part_001: reads
`{ id, value = 0 }`; when `value > money` it returns without touching the
state; otherwise it updates the inventory via `purchaseInto` and sets
`money -= value`. -/
def handleItemPurchase (item : PurchaseItem) (s : PurchaseState) :
    PurchaseState :=
  let value := item.value.getD 0
  if s.money < value then s
  else
    { inventory := purchaseInto item.id s.inventory
      money := s.money - value }

/-- The total quantity the inventory holds under an item id. -/
def inventoryQuantity (id : String) (inventory : List InventoryEntry) : ℚ :=
  ((inventory.filter (fun e => decide (e.id = id))).map
    InventoryEntry.quantity).sum

end Farmhand

namespace Farmhand

/-! ## Theorems -/

theorem getLifeStageRange_getD (tt : CropTimetable) (n : ℕ) :
    (getLifeStageRange tt).getD n .GROWN =
      if n < tt.seed then .SEED
      else if n < tt.seed + tt.growing then .GROWING
      else .GROWN := by
  rw [List.getD_eq_getElem?_getD, getLifeStageRange]
  rcases lt_or_ge n tt.seed with h1 | h1
  · rw [List.getElem?_append_left (by simpa using h1)]
    simp [List.getElem?_replicate, h1]
  · rw [List.getElem?_append_right (by simpa using h1)]
    rcases lt_or_ge n (tt.seed + tt.growing) with h2 | h2
    · have : n - tt.seed < tt.growing := by omega
      simp [List.getElem?_replicate, this, not_lt_of_ge h1, h2]
    · have : ¬ n - tt.seed < tt.growing := by omega
      simp [List.getElem?_replicate, this, not_lt_of_ge h1, not_lt_of_ge h2]

/-- Claim C1: for every crop with nonnegative `daysWatered`,
`getCropLifeStage` returns the entry at index `⌊daysWatered⌋` of the stage
table built from the crop item's `cropTimetable` (timetable-seed copies of
SEED followed by timetable-growing copies of GROWING), and returns GROWN
whenever that index is at or beyond the table's length; for a timetable
`{SEED: 3, GROWING: 4}`, `daysWatered < 3` gives SEED, `3 ≤ daysWatered < 7`
gives GROWING, `7 ≤ daysWatered` gives GROWN; and a crop whose `daysWatered`
is 0 is SEED regardless of `daysOld`, provided its timetable allots at least
one SEED day. -/
theorem getCropLifeStage_stage_table (cropTimetableOf : String → CropTimetable)
    (crop : Crop) (h0 : 0 ≤ crop.daysWatered) :
    (∀ hlt : (Int.floor crop.daysWatered).toNat <
        (getLifeStageRange (cropTimetableOf crop.itemId)).length,
      getCropLifeStage cropTimetableOf crop =
        (getLifeStageRange (cropTimetableOf crop.itemId)).get
          ⟨(Int.floor crop.daysWatered).toNat, hlt⟩) ∧
    ((getLifeStageRange (cropTimetableOf crop.itemId)).length ≤
        (Int.floor crop.daysWatered).toNat →
      getCropLifeStage cropTimetableOf crop = .GROWN) ∧
    (cropTimetableOf crop.itemId = ⟨3, 4⟩ →
      (crop.daysWatered < 3 → getCropLifeStage cropTimetableOf crop = .SEED) ∧
      (3 ≤ crop.daysWatered → crop.daysWatered < 7 →
        getCropLifeStage cropTimetableOf crop = .GROWING) ∧
      (7 ≤ crop.daysWatered → getCropLifeStage cropTimetableOf crop = .GROWN)) ∧
    (1 ≤ (cropTimetableOf crop.itemId).seed → crop.daysWatered = 0 →
      getCropLifeStage cropTimetableOf crop = .SEED) := by
  have hfl : (0 : ℤ) ≤ Int.floor crop.daysWatered := Int.floor_nonneg.mpr h0
  have hstage : getCropLifeStage cropTimetableOf crop =
      (getLifeStageRange (cropTimetableOf crop.itemId)).getD
        (Int.floor crop.daysWatered).toNat .GROWN := by
    rw [getCropLifeStage]
    simp [hfl]
  refine ⟨?_, ?_, ?_, ?_⟩
  · intro hlt
    rw [hstage, List.getD_eq_getElem?_getD, List.getElem?_eq_getElem hlt]
    rfl
  · intro hge
    rw [hstage, List.getD_eq_getElem?_getD, List.getElem?_eq_none (by simpa using hge)]
    rfl
  · intro htt
    have hlen : (getLifeStageRange (cropTimetableOf crop.itemId)) =
        getLifeStageRange ⟨3, 4⟩ := by rw [htt]
    refine ⟨?_, ?_, ?_⟩
    · intro hlt3
      have hi : Int.floor crop.daysWatered < 3 := by
        rw [Int.floor_lt]; exact_mod_cast hlt3
      have hn : (Int.floor crop.daysWatered).toNat < 3 := by omega
      rw [hstage, hlen, getLifeStageRange_getD]
      simp [hn]
    · intro hge3 hlt7
      have hiu : Int.floor crop.daysWatered < 7 := by
        rw [Int.floor_lt]; exact_mod_cast hlt7
      have hil : (3 : ℤ) ≤ Int.floor crop.daysWatered := by
        rw [Int.le_floor]; exact_mod_cast hge3
      have hn1 : ¬ (Int.floor crop.daysWatered).toNat < 3 := by omega
      have hn2 : (Int.floor crop.daysWatered).toNat < 3 + 4 := by omega
      rw [hstage, hlen, getLifeStageRange_getD]
      simp [hn1, hn2]
    · intro hge7
      have hil : (7 : ℤ) ≤ Int.floor crop.daysWatered := by
        rw [Int.le_floor]; exact_mod_cast hge7
      have hn1 : ¬ (Int.floor crop.daysWatered).toNat < 3 := by omega
      have hn2 : ¬ (Int.floor crop.daysWatered).toNat < 3 + 4 := by omega
      rw [hstage, hlen, getLifeStageRange_getD]
      simp [hn1, hn2]
  · intro hseed hzero
    have : Int.floor crop.daysWatered = 0 := by rw [hzero]; exact Int.floor_zero
    rw [hstage, this, getLifeStageRange_getD]
    have h0s : 0 < (cropTimetableOf crop.itemId).seed := hseed
    simp [h0s]

/-- Witness for C1 at a concrete input: timetable `{SEED: 3, GROWING: 4}`,
`daysWatered = 2`, giving SEED. -/
theorem getCropLifeStage_stage_table_witness :
    (0 : ℚ) ≤ 2 ∧
      getCropLifeStage (fun _ => ⟨3, 4⟩) ⟨"c", 5, 2, false, false⟩ = .SEED := by
  refine ⟨by norm_num, ?_⟩
  exact ((getCropLifeStage_stage_table (fun _ => ⟨3, 4⟩)
    ⟨"c", 5, 2, false, false⟩ (by norm_num)).2.2.1 rfl).1 (by norm_num)

theorem vaStep_acc (pc ps : String → Bool) (r : String → ℚ)
    (acc : List (String × ℚ)) (kv : String × MarketItem) :
    vaStep pc ps r acc kv = acc ++ vaStep pc ps r [] kv := by
  unfold vaStep
  split_ifs <;> simp

theorem foldl_vaStep_acc (pc ps : String → Bool) (r : String → ℚ)
    (l : List (String × MarketItem)) :
    ∀ acc, l.foldl (vaStep pc ps r) acc = acc ++ l.foldl (vaStep pc ps r) [] := by
  induction l with
  | nil => simp
  | cons x xs ih =>
    intro acc
    rw [List.foldl_cons, List.foldl_cons, ih (vaStep pc ps r acc x),
      ih (vaStep pc ps r [] x), vaStep_acc, List.append_assoc]

theorem generateValueAdjustments_eq (catalog : List (String × MarketItem))
    (pc ps : String → Bool) (r : String → ℚ) :
    generateValueAdjustments catalog pc ps r =
      (catalog.filter fun kv => kv.2.doesPriceFluctuate).map
        (fun kv => (kv.1, vaValue pc ps r kv.1)) := by
  induction catalog with
  | nil => rfl
  | cons x xs ih =>
    rw [generateValueAdjustments, List.foldl_cons,
      foldl_vaStep_acc pc ps r xs (vaStep pc ps r [] x)]
    rw [generateValueAdjustments] at ih
    rw [ih]
    by_cases hf : x.2.doesPriceFluctuate
    · have hstep : vaStep pc ps r [] x = [(x.1, vaValue pc ps r x.1)] := by
        unfold vaStep vaValue
        split_ifs with h1 h2 h3 <;> simp_all
      rw [hstep, List.filter_cons_of_pos (by simpa using hf)]
      simp
    · have hstep : vaStep pc ps r [] x = [] := by
        unfold vaStep
        split_ifs with h1 <;> simp_all
      rw [hstep, List.filter_cons_of_neg (by simpa using hf)]
      simp

theorem lookupKey_keyed_map {β γ : Type} (l : List (String × β))
    (g : String → γ) (k : String) :
    lookupKey (l.map fun kv => (kv.1, g kv.1)) k =
      if k ∈ l.map Prod.fst then some (g k) else none := by
  induction l with
  | nil => simp [lookupKey]
  | cons x xs ih =>
    simp only [List.map_cons, lookupKey]
    by_cases h : k = x.1
    · simp [h]
    · rw [if_neg h, ih]
      have hmem : (k ∈ x.1 :: List.map Prod.fst xs) ↔ k ∈ List.map Prod.fst xs := by
        simp [h]
      by_cases h2 : k ∈ List.map Prod.fst xs
      · rw [if_pos h2, if_pos (hmem.mpr h2)]
      · rw [if_neg h2, if_neg (fun hc => h2 (hmem.mp hc))]

/-- Claim C2: `generateValueAdjustments` contains exactly the catalog items
flagged `doesPriceFluctuate`: every such item maps to 0.5 under a price
crash (crash winning over a simultaneous surge), else to 1.5 under a price
surge, else to the sampled value `random + 0.5`, which lies in `[0.5, 1.5)`;
items not flagged fluctuating, and keys outside the catalog, are absent. -/
theorem generateValueAdjustments_spec (catalog : List (String × MarketItem))
    (pc ps : String → Bool) (r : String → ℚ)
    (hnd : (catalog.map Prod.fst).Nodup)
    (hr : ∀ k, 0 ≤ r k ∧ r k < 1) :
    (∀ k item, (k, item) ∈ catalog → item.doesPriceFluctuate = true →
      ∃ v, lookupKey (generateValueAdjustments catalog pc ps r) k = some v ∧
        (pc k = true → v = 0.5) ∧
        (pc k = false → ps k = true → v = 1.5) ∧
        (pc k = false → ps k = false →
          v = r k + 0.5 ∧ 0.5 ≤ v ∧ v < 1.5)) ∧
    (∀ k item, (k, item) ∈ catalog → item.doesPriceFluctuate = false →
      lookupKey (generateValueAdjustments catalog pc ps r) k = none) ∧
    (∀ k, k ∉ catalog.map Prod.fst →
      lookupKey (generateValueAdjustments catalog pc ps r) k = none) := by
  rw [generateValueAdjustments_eq]
  refine ⟨?_, ?_, ?_⟩
  · intro k item hmem hf
    refine ⟨vaValue pc ps r k, ?_, ?_, ?_, ?_⟩
    · rw [lookupKey_keyed_map]
      have : k ∈ (catalog.filter fun kv => kv.2.doesPriceFluctuate).map Prod.fst := by
        exact List.mem_map_of_mem _ (List.mem_filter.mpr ⟨hmem, by simpa using hf⟩)
      simp [this]
    · intro hc
      unfold vaValue
      simp [hc]
    · intro hc hs
      unfold vaValue
      simp [hc, hs]
    · intro hc hs
      have hvv : vaValue pc ps r k = r k + 0.5 := by
        unfold vaValue
        simp [hc, hs]
      refine ⟨hvv, ?_, ?_⟩
      · rw [hvv]
        have := (hr k).1
        linarith
      · rw [hvv]
        have := (hr k).2
        linarith
  · intro k item hmem hf
    rw [lookupKey_keyed_map]
    have hk : k ∉ (catalog.filter fun kv => kv.2.doesPriceFluctuate).map Prod.fst := by
      intro hkmem
      obtain ⟨kv, hkvmem, hkeq⟩ := List.mem_map.mp hkmem
      have hkvcat := (List.mem_filter.mp hkvmem).1
      have hkvf := (List.mem_filter.mp hkvmem).2
      have : kv = (k, item) := by
        have h1 : kv.1 = k := hkeq
        subst h1
        exact (List.inj_on_of_nodup_map hnd) hkvcat hmem rfl
      rw [this] at hkvf
      simp [hf] at hkvf
    simp [hk]
  · intro k hk
    rw [lookupKey_keyed_map]
    have hk2 : k ∉ (catalog.filter fun kv => kv.2.doesPriceFluctuate).map Prod.fst := by
      intro hkmem
      obtain ⟨kv, hkvmem, hkeq⟩ := List.mem_map.mp hkmem
      exact hk (hkeq ▸ List.mem_map_of_mem _ (List.mem_filter.mp hkvmem).1)
    simp [hk2]

/-- Witness for C2 at a concrete input: a two-item catalog with one
fluctuating item and no events; draw 1/4 gives adjustment 3/4, and the
non-fluctuating item is absent. -/
theorem generateValueAdjustments_spec_witness :
    lookupKey (generateValueAdjustments [("apple", ⟨50, true⟩), ("rock", ⟨10, false⟩)]
      (fun _ => false) (fun _ => false) (fun _ => 1/4)) "apple" = some (3/4) ∧
    lookupKey (generateValueAdjustments [("apple", ⟨50, true⟩), ("rock", ⟨10, false⟩)]
      (fun _ => false) (fun _ => false) (fun _ => 1/4)) "rock" = none := by
  obtain ⟨h1, h2, _⟩ := generateValueAdjustments_spec
    [("apple", ⟨50, true⟩), ("rock", ⟨10, false⟩)]
    (fun _ => false) (fun _ => false) (fun _ => 1/4)
    (by decide) (fun k => by norm_num)
  constructor
  · obtain ⟨v, hv, _, _, hval⟩ := h1 "apple" ⟨50, true⟩ (by simp) rfl
    rw [hv, (hval rfl rfl).1]
    norm_num
  · exact h2 "rock" ⟨10, false⟩ (by simp) rfl

/-- Claim C3: `generateOffspringCow(cowA, cowB)` raises a domain error if
and only if both cows share a gender, the raised error carries both
offending cow records, and with differing genders it always succeeds with a
cow. -/
theorem generateOffspringCow_gender_check (C : CowConstants) (r : CowRandom)
    (cow1 cow2 : Cow) :
    (cow1.gender = cow2.gender →
      generateOffspringCow C r cow1 cow2 = .error (cow1, cow2)) ∧
    (cow1.gender ≠ cow2.gender →
      ∃ child, generateOffspringCow C r cow1 cow2 = .ok child) ∧
    (∀ e, generateOffspringCow C r cow1 cow2 = .error e →
      e = (cow1, cow2) ∧ cow1.gender = cow2.gender) := by
  refine ⟨?_, ?_, ?_⟩
  · intro h
    rw [generateOffspringCow, if_pos h]
  · intro h
    rw [generateOffspringCow, if_neg h]
    exact ⟨_, rfl⟩
  · intro e he
    rw [generateOffspringCow] at he
    by_cases h : cow1.gender = cow2.gender
    · rw [if_pos h] at he
      exact ⟨(Except.error.injEq _ _).mp he.symm, h⟩
    · rw [if_neg h] at he
      exact absurd he (by simp)

/-- Witness for C3 at a concrete input: two male cows produce the domain
error carrying both records. -/
theorem generateOffspringCow_gender_check_witness :
    sampleMaleCow.gender = sampleMaleCow.gender ∧
      generateOffspringCow sampleCowConstants sampleCowRandom sampleMaleCow
        sampleMaleCow = .error (sampleMaleCow, sampleMaleCow) :=
  ⟨rfl, (generateOffspringCow_gender_check sampleCowConstants sampleCowRandom
    sampleMaleCow sampleMaleCow).1 rfl⟩

/-- Claim C4: for every male cow `m` and female cow `f`, in either argument
order, `generateOffspringCow` succeeds and returns a cow whose color is
`m.color`, whose `colorsInBloodline` is the union of both parents'
bloodline sets and both parents' own colors (hence a superset of each), and
whose `baseWeight` is the arithmetic mean of the parents' base weights. -/
theorem generateOffspringCow_inheritance (C : CowConstants) (r : CowRandom)
    (m f : Cow) (hm : m.gender = Gender.MALE) (hf : f.gender = Gender.FEMALE) :
    (∃ child, generateOffspringCow C r m f = .ok child) ∧
    (∃ child, generateOffspringCow C r f m = .ok child) ∧
    ∀ child,
      (generateOffspringCow C r m f = .ok child ∨
        generateOffspringCow C r f m = .ok child) →
      child.color = m.color ∧
      child.baseWeight = (m.baseWeight + f.baseWeight) / 2 ∧
      (∀ c, child.colorsInBloodline c =
        (decide (c = m.color) || decide (c = f.color) ||
          m.colorsInBloodline c || f.colorsInBloodline c)) ∧
      (∀ c, m.colorsInBloodline c = true → child.colorsInBloodline c = true) ∧
      (∀ c, f.colorsInBloodline c = true → child.colorsInBloodline c = true) ∧
      child.colorsInBloodline m.color = true ∧
      child.colorsInBloodline f.color = true := by
  have hne : m.gender ≠ f.gender := by rw [hm, hf]; exact fun h => nomatch h
  have hne2 : f.gender ≠ m.gender := fun h => hne h.symm
  have hmf : generateOffspringCow C r m f = .ok (generateCow C r
      { noCowOptions with
        color := some m.color
        colorsInBloodline := some (fun c =>
          decide (c = m.color) || decide (c = f.color) ||
            m.colorsInBloodline c || f.colorsInBloodline c)
        baseWeight := some ((m.baseWeight + f.baseWeight) / 2) }) := by
    rw [generateOffspringCow, if_neg hne]
    simp only [hm, if_pos]
  have hfm : generateOffspringCow C r f m = .ok (generateCow C r
      { noCowOptions with
        color := some m.color
        colorsInBloodline := some (fun c =>
          decide (c = m.color) || decide (c = f.color) ||
            m.colorsInBloodline c || f.colorsInBloodline c)
        baseWeight := some ((m.baseWeight + f.baseWeight) / 2) }) := by
    rw [generateOffspringCow, if_neg hne2]
    have : (if f.gender = Gender.MALE then f else m) = m := by
      rw [hf]; rfl
    have h2 : (if f.gender = Gender.MALE then m else f) = f := by
      rw [hf]; rfl
    rw [this, h2]
  refine ⟨⟨_, hmf⟩, ⟨_, hfm⟩, ?_⟩
  intro child hchild
  have hchildeq : child = generateCow C r
      { noCowOptions with
        color := some m.color
        colorsInBloodline := some (fun c =>
          decide (c = m.color) || decide (c = f.color) ||
            m.colorsInBloodline c || f.colorsInBloodline c)
        baseWeight := some ((m.baseWeight + f.baseWeight) / 2) } := by
    rcases hchild with h | h
    · rw [hmf] at h
      exact ((Except.ok.injEq _ _).mp h).symm
    · rw [hfm] at h
      exact ((Except.ok.injEq _ _).mp h).symm
  subst hchildeq
  refine ⟨rfl, rfl, fun c => rfl, ?_, ?_, ?_, ?_⟩
  · intro c hc
    show (decide (c = m.color) || decide (c = f.color) ||
      m.colorsInBloodline c || f.colorsInBloodline c) = true
    simp [hc]
  · intro c hc
    show (decide (c = m.color) || decide (c = f.color) ||
      m.colorsInBloodline c || f.colorsInBloodline c) = true
    simp [hc]
  · show (decide (m.color = m.color) || _ || _ || _) = true
    simp
  · show (decide (f.color = m.color) || decide (f.color = f.color) || _ || _) = true
    simp

/-- Witness for C4 at a concrete input: the sample male and female cows
produce an offspring with the father's color, the mean base weight, and the
mother's color in its bloodline. -/
theorem generateOffspringCow_inheritance_witness :
    sampleMaleCow.gender = Gender.MALE ∧
    sampleFemaleCow.gender = Gender.FEMALE ∧
    sampleOffspring.color = sampleMaleCow.color ∧
    sampleOffspring.baseWeight =
      (sampleMaleCow.baseWeight + sampleFemaleCow.baseWeight) / 2 ∧
    sampleOffspring.colorsInBloodline sampleFemaleCow.color = true := by
  have h := generateOffspringCow_inheritance sampleCowConstants sampleCowRandom
    sampleMaleCow sampleFemaleCow rfl rfl
  have hok : generateOffspringCow sampleCowConstants sampleCowRandom
      sampleMaleCow sampleFemaleCow = .ok sampleOffspring := by
    obtain ⟨child, hchild⟩ := h.1
    rw [hchild]
    rw [show sampleOffspring = child by
      rw [sampleOffspring, hchild, Except.toOption, Option.getD]]
  obtain ⟨h1, h2, _, _, _, _, h7⟩ := h.2.2 sampleOffspring (Or.inl hok)
  exact ⟨rfl, rfl, h1, h2, h7⟩

theorem clampNumber_bounds (x lo hi : ℚ) (h : lo ≤ hi) :
    lo ≤ clampNumber x lo hi ∧ clampNumber x lo hi ≤ hi := by
  unfold clampNumber
  split_ifs <;> constructor <;> linarith

theorem clampNumber_mono (x y lo hi : ℚ) (h : lo ≤ hi) (hxy : x ≤ y) :
    clampNumber x lo hi ≤ clampNumber y lo hi := by
  unfold clampNumber
  split_ifs <;> linarith

theorem clampNumber_eq_self (x lo hi : ℚ) (hlo : lo ≤ x) (hhi : x ≤ hi) :
    clampNumber x lo hi = x := by
  unfold clampNumber
  split_ifs <;> linarith

theorem scaleNumber_age_antitone (D MAXM MINM : ℚ) (hd : 1 < D)
    (hmm : MINM ≤ MAXM) {d1 d2 : ℚ} (h12 : d1 ≤ d2) :
    scaleNumber d2 1 D MAXM MINM ≤ scaleNumber d1 1 D MAXM MINM := by
  unfold scaleNumber
  have hD : (0 : ℚ) < D - 1 := by linarith
  have h1 : (d2 - 1) * (MINM - MAXM) ≤ (d1 - 1) * (MINM - MAXM) := by nlinarith
  have h2 := (div_le_div_iff_of_pos_right hD).mpr h1
  linarith

/-- Claim C5: `getCowValue` is `getCowWeight(cow)` times a clamped inverted
linear age factor: the factor is the maximum multiplier at `daysOld = 1`,
the minimum multiplier at `daysOld ≥ COW_MAXIMUM_AGE_VALUE_DROPOFF`, equals
the linear interpolation between those ages, always lies within
`[COW_MINIMUM_VALUE_MULTIPLIER, COW_MAXIMUM_VALUE_MULTIPLIER]` (hence never
negative), and is monotonically decreasing. -/
theorem getCowValue_age_curve (C : CowConstants) (cow : Cow)
    (hmm : C.COW_MINIMUM_VALUE_MULTIPLIER ≤ C.COW_MAXIMUM_VALUE_MULTIPLIER)
    (hd : 1 < C.COW_MAXIMUM_AGE_VALUE_DROPOFF)
    (hpos : 0 ≤ C.COW_MINIMUM_VALUE_MULTIPLIER) :
    getCowValue C cow = getCowWeight cow * cowValueFactor C cow.daysOld ∧
    cowValueFactor C 1 = C.COW_MAXIMUM_VALUE_MULTIPLIER ∧
    (∀ d, C.COW_MAXIMUM_AGE_VALUE_DROPOFF ≤ d →
      cowValueFactor C d = C.COW_MINIMUM_VALUE_MULTIPLIER) ∧
    (∀ d, 1 ≤ d → d ≤ C.COW_MAXIMUM_AGE_VALUE_DROPOFF →
      cowValueFactor C d =
        scaleNumber d 1 C.COW_MAXIMUM_AGE_VALUE_DROPOFF
          C.COW_MAXIMUM_VALUE_MULTIPLIER C.COW_MINIMUM_VALUE_MULTIPLIER) ∧
    (∀ d, C.COW_MINIMUM_VALUE_MULTIPLIER ≤ cowValueFactor C d ∧
      cowValueFactor C d ≤ C.COW_MAXIMUM_VALUE_MULTIPLIER ∧
      0 ≤ cowValueFactor C d) ∧
    (∀ d1 d2, d1 ≤ d2 → cowValueFactor C d2 ≤ cowValueFactor C d1) := by
  set D := C.COW_MAXIMUM_AGE_VALUE_DROPOFF with hDdef
  set MAXM := C.COW_MAXIMUM_VALUE_MULTIPLIER with hMaxdef
  set MINM := C.COW_MINIMUM_VALUE_MULTIPLIER with hMindef
  have hD : (0 : ℚ) < D - 1 := by linarith
  have hscale1 : scaleNumber 1 1 D MAXM MINM = MAXM := by
    unfold scaleNumber
    simp
  have hscaleD : scaleNumber D 1 D MAXM MINM = MINM := by
    have hne : D - 1 ≠ 0 := ne_of_gt hD
    unfold scaleNumber
    field_simp
  refine ⟨rfl, ?_, ?_, ?_, ?_, ?_⟩
  · rw [cowValueFactor, hscale1]
    exact clampNumber_eq_self _ _ _ hmm le_rfl
  · intro d hge
    have h1 : scaleNumber d 1 D MAXM MINM ≤ MINM := by
      have := scaleNumber_age_antitone D MAXM MINM hd hmm hge
      rw [hscaleD] at this
      exact this
    rw [cowValueFactor, clampNumber, if_pos h1]
  · intro d h1 h2
    have hub : scaleNumber d 1 D MAXM MINM ≤ MAXM := by
      have := scaleNumber_age_antitone D MAXM MINM hd hmm h1
      rw [hscale1] at this
      exact this
    have hlb : MINM ≤ scaleNumber d 1 D MAXM MINM := by
      have := scaleNumber_age_antitone D MAXM MINM hd hmm h2
      rw [hscaleD] at this
      exact this
    exact clampNumber_eq_self _ _ _ hlb hub
  · intro d
    obtain ⟨hl, hr⟩ := clampNumber_bounds (scaleNumber d 1 D MAXM MINM) MINM MAXM hmm
    exact ⟨hl, hr, le_trans hpos hl⟩
  · intro d1 d2 h12
    exact clampNumber_mono _ _ _ _ hmm (scaleNumber_age_antitone D MAXM MINM hd hmm h12)

/-- Witness for C5 at a concrete input: with the sample constants
(minimum multiplier 1/2, maximum 3/2, dropoff age 100) and the sample male
cow, the factor at age 1 is the maximum multiplier and the factor at age
100 is the minimum multiplier. -/
theorem getCowValue_age_curve_witness :
    cowValueFactor sampleCowConstants 1 =
      sampleCowConstants.COW_MAXIMUM_VALUE_MULTIPLIER ∧
    cowValueFactor sampleCowConstants 100 =
      sampleCowConstants.COW_MINIMUM_VALUE_MULTIPLIER ∧
    getCowValue sampleCowConstants sampleMaleCow =
      getCowWeight sampleMaleCow * cowValueFactor sampleCowConstants 3 := by
  have h := getCowValue_age_curve sampleCowConstants sampleMaleCow
    (by norm_num [sampleCowConstants]) (by norm_num [sampleCowConstants])
    (by norm_num [sampleCowConstants])
  exact ⟨h.2.1, h.2.2.1 100 (by norm_num [sampleCowConstants]), h.1⟩

/-- Counterexample to claim C6 as stated: at a concrete male cow the code
returns the JS number `Infinity` — the numeric sentinel for an infinite
rate — not a distinguished "not applicable" value. -/
theorem getCowMilkRate_male_counterexample :
    getCowMilkRate sampleCowConstants sampleMaleCow = JSNum.inf := by
  rfl

/-- Claim C6 (amended): for every female cow `getCowMilkRate` returns the
numeric rate scaling `weightMultiplier` linearly from the configured
weight-multiplier band onto the slowest/fastest milk-rate band; for every
male cow it returns the JS numeric sentinel `Infinity`. -/
theorem getCowMilkRate_by_gender (C : CowConstants) (cow : Cow) :
    (cow.gender = Gender.FEMALE →
      getCowMilkRate C cow = .num (scaleNumber cow.weightMultiplier
        C.COW_WEIGHT_MULTIPLIER_MINIMUM C.COW_WEIGHT_MULTIPLIER_MAXIMUM
        C.COW_MILK_RATE_SLOWEST C.COW_MILK_RATE_FASTEST)) ∧
    (cow.gender = Gender.MALE → getCowMilkRate C cow = .inf) := by
  constructor <;> intro h <;> simp [getCowMilkRate, h]

/-- Witness for the amended C6 at a concrete input: the sample female cow
gets the scaled numeric rate. -/
theorem getCowMilkRate_by_gender_witness :
    sampleFemaleCow.gender = Gender.FEMALE ∧
    getCowMilkRate sampleCowConstants sampleFemaleCow =
      .num (scaleNumber sampleFemaleCow.weightMultiplier
        sampleCowConstants.COW_WEIGHT_MULTIPLIER_MINIMUM
        sampleCowConstants.COW_WEIGHT_MULTIPLIER_MAXIMUM
        sampleCowConstants.COW_MILK_RATE_SLOWEST
        sampleCowConstants.COW_MILK_RATE_FASTEST) :=
  ⟨rfl, (getCowMilkRate_by_gender sampleCowConstants sampleFemaleCow).1 rfl⟩

theorem mem_rangeInts {a b t : ℤ} : t ∈ rangeInts a b ↔ a ≤ t ∧ t ≤ b := by
  simp only [rangeInts, List.mem_map, List.mem_range]
  constructor
  · rintro ⟨i, hi, rfl⟩
    omega
  · rintro ⟨h1, h2⟩
    exact ⟨(t - a).toNat, by omega, by omega⟩

theorem pairwise_lt_rangeInts (a b : ℤ) : (rangeInts a b).Pairwise (· < ·) :=
  List.Pairwise.map _ (fun i j hij => by omega)
    (List.pairwise_lt_range (b + 1 - a).toNat)

theorem nodup_rangeInts (a b : ℤ) : (rangeInts a b).Nodup :=
  (pairwise_lt_rangeInts a b).imp ne_of_lt

theorem rangeInts_filter (a b lo hi : ℤ) :
    (rangeInts a b).filter (fun t => decide (lo ≤ t ∧ t ≤ hi)) =
      rangeInts (max a lo) (min b hi) := by
  have hs1 : ((rangeInts a b).filter
      (fun t => decide (lo ≤ t ∧ t ≤ hi))).Pairwise (· < ·) :=
    (pairwise_lt_rangeInts a b).filter _
  have hs2 : (rangeInts (max a lo) (min b hi)).Pairwise (· < ·) :=
    pairwise_lt_rangeInts _ _
  refine List.eq_of_perm_of_sorted ?_ (hs1.imp le_of_lt) (hs2.imp le_of_lt)
  refine (List.perm_ext_iff_of_nodup (hs1.imp ne_of_lt) (hs2.imp ne_of_lt)).mpr ?_
  intro t
  simp only [List.mem_filter, mem_rangeInts, decide_eq_true_eq]
  omega

theorem foldl_flatMap {α β γ : Type} (l : List α) (g : α → List β)
    (f : γ → β → γ) (init : γ) :
    (l.flatMap g).foldl f init = l.foldl (fun s a => (g a).foldl f s) init := by
  induction l generalizing init with
  | nil => rfl
  | cons x xs ih => simp only [List.flatMap_cons, List.foldl_append, List.foldl_cons, ih]

/-- Claim C7: on a non-empty rectangular field, `forRange` is the row-major
left fold of the cell function over the coordinates of the
`(2·radius+1)²` square centered at `(plotX, plotY)` clipped to the field
bounds (`squareCoords`), whose members are exactly the in-bounds square
coordinates, each occurring once; on a 5×5 field a radius-1 range centered
at (2,2) visits exactly the 9 square cells in row-major order, at (0,0)
exactly the 4 clipped cells, and a center outside the bounds visits no cell
and returns the state unchanged. -/
theorem forRange_spec {α σ : Type} (state : FieldState α σ)
    (fieldFn : FieldState α σ → ℤ → ℤ → FieldState α σ)
    (rangeRadius plotX plotY : ℤ)
    (hne : state.field ≠ [])
    (hrect : ∀ row ∈ state.field, row.length = (state.field.headD []).length) :
    (forRange state fieldFn rangeRadius plotX plotY =
      (squareCoords ((state.field.headD []).length : ℤ)
          ((state.field.length : ℤ)) rangeRadius plotX plotY).foldl
        (fun s p => fieldFn s p.1 p.2) state) ∧
    (∀ p : ℤ × ℤ,
      p ∈ squareCoords ((state.field.headD []).length : ℤ)
          ((state.field.length : ℤ)) rangeRadius plotX plotY ↔
        (0 ≤ p.1 ∧ p.1 < ((state.field.headD []).length : ℤ) ∧
         0 ≤ p.2 ∧ p.2 < (state.field.length : ℤ) ∧
         plotX - rangeRadius ≤ p.1 ∧ p.1 ≤ plotX + rangeRadius ∧
         plotY - rangeRadius ≤ p.2 ∧ p.2 ≤ plotY + rangeRadius)) ∧
    (squareCoords ((state.field.headD []).length : ℤ)
        ((state.field.length : ℤ)) rangeRadius plotX plotY).Nodup ∧
    (forRange ⟨field5x5, ([] : List (ℤ × ℤ))⟩ logStep 1 2 2).rest =
      [(1, 1), (2, 1), (3, 1), (1, 2), (2, 2), (3, 2), (1, 3), (2, 3), (3, 3)] ∧
    (forRange ⟨field5x5, ([] : List (ℤ × ℤ))⟩ logStep 1 0 0).rest =
      [(0, 0), (1, 0), (0, 1), (1, 1)] ∧
    forRange ⟨field5x5, ([] : List (ℤ × ℤ))⟩ logStep 1 7 7 =
      ⟨field5x5, ([] : List (ℤ × ℤ))⟩ := by
  refine ⟨?_, ?_, ?_, by rfl, by rfl, by rfl⟩
  · rw [forRange, squareCoords, rangeInts_filter, rangeInts_filter,
      max_comm 0 (plotX - rangeRadius), min_comm (((state.field.headD []).length : ℤ) - 1),
      max_comm 0 (plotY - rangeRadius), min_comm ((state.field.length : ℤ) - 1),
      foldl_flatMap]
    simp only [List.foldl_map]
  · intro p
    simp only [squareCoords, List.mem_flatMap, List.mem_map, List.mem_filter,
      mem_rangeInts, decide_eq_true_eq]
    constructor
    · rintro ⟨y, ⟨⟨hy1, hy2⟩, hy3, hy4⟩, x, ⟨⟨hx1, hx2⟩, hx3, hx4⟩, rfl⟩
      exact ⟨hx1, by omega, hy1, by omega, hx3, hx4, hy3, hy4⟩
    · rintro ⟨h1, h2, h3, h4, h5, h6, h7, h8⟩
      exact ⟨p.2, ⟨⟨h3, by omega⟩, h7, h8⟩, p.1, ⟨⟨h1, by omega⟩, h5, h6⟩, rfl⟩
  · rw [squareCoords, List.nodup_flatMap]
    constructor
    · intro y _
      refine List.Nodup.map ?_ ((nodup_rangeInts _ _).filter _)
      intro x1 x2 hx
      exact (Prod.mk.injEq _ _ _ _).mp hx |>.1
    · refine List.Pairwise.imp ?_ (((nodup_rangeInts _ _).filter _))
      intro y1 y2 hne12 p hp1 hp2
      simp only [List.mem_map] at hp1 hp2
      obtain ⟨x1, _, rfl⟩ := hp1
      obtain ⟨x2, _, hx2⟩ := hp2
      exact hne12 ((Prod.mk.injEq _ _ _ _).mp hx2.symm).2

/-- Witness for C7 at a concrete input: the 5×5 all-empty field is nonempty
and rectangular, and the radius-1 fold centered at (2,2) both equals the
`squareCoords` fold and visits the 9 center cells in row-major order. -/
theorem forRange_spec_witness :
    (field5x5 ≠ [] ∧ ∀ row ∈ field5x5, row.length = (field5x5.headD []).length) ∧
    forRange ⟨field5x5, ([] : List (ℤ × ℤ))⟩ logStep 1 2 2 =
      (squareCoords ((field5x5.headD []).length : ℤ) ((field5x5.length : ℤ)) 1 2 2).foldl
        (fun s p => logStep s p.1 p.2) ⟨field5x5, ([] : List (ℤ × ℤ))⟩ ∧
    (forRange ⟨field5x5, ([] : List (ℤ × ℤ))⟩ logStep 1 2 2).rest =
      [(1, 1), (2, 1), (3, 1), (1, 2), (2, 2), (3, 2), (1, 3), (2, 3), (3, 3)] := by
  have h := forRange_spec (⟨field5x5, ([] : List (ℤ × ℤ))⟩ :
      FieldState (Option Unit) (List (ℤ × ℤ))) logStep 1 2 2
    (by simp [field5x5]) (by intro row hrow; simp [field5x5] at hrow ⊢; simp [hrow])
  exact ⟨⟨by simp [field5x5], by intro row hrow; simp [field5x5] at hrow ⊢; simp [hrow]⟩,
    h.1, h.2.2.2.1⟩

theorem cacheOK_nil {α β : Type} [DecidableEq α] (fn : α → β) :
    CacheOK fn ([] : List (α × β)) := by
  intro k v h
  exact absurd h (by simp [lookupKey])

theorem memoApply_correct {α β : Type} [DecidableEq α] (fn : α → β) (T : ℕ)
    (c : List (α × β)) (a : α) (h : CacheOK fn c) :
    (memoApply fn T c a).1 = fn a ∧ CacheOK fn (memoApply fn T c a).2 := by
  rw [memoApply]
  cases hl : lookupKey c a with
  | some v => exact ⟨h a v hl, h⟩
  | none =>
    refine ⟨rfl, ?_⟩
    intro k v hkv
    rw [cacheSet] at hkv
    split_ifs at hkv with hT
    · rw [lookupKey] at hkv
      split_ifs at hkv with hk
      · subst hk
        exact ((Option.some.injEq _ _).mp hkv).symm
      · exact absurd hkv (by simp [lookupKey])
    · rw [lookupKey] at hkv
      split_ifs at hkv with hk
      · subst hk
        exact ((Option.some.injEq _ _).mp hkv).symm
      · exact h k v hkv

theorem runMemo_correct {α β : Type} [DecidableEq α] (fn : α → β) (T : ℕ)
    (as : List α) :
    ∀ c : List (α × β), CacheOK fn c →
      (runMemo fn T c as).1 = as.map fn ∧ CacheOK fn (runMemo fn T c as).2 := by
  induction as with
  | nil => exact fun c h => ⟨rfl, h⟩
  | cons a as ih =>
    intro c h
    obtain ⟨h1, h2⟩ := memoApply_correct fn T c a h
    obtain ⟨h3, h4⟩ := ih (memoApply fn T c a).2 h2
    rw [runMemo]
    exact ⟨by rw [List.map_cons, h1, h3], h4⟩

/-- Claim C8: memoization never changes the wrapped pure function's
input-output behavior — every call on a consistent cache returns `fn`'s
value and keeps the cache consistent, so any call sequence from the empty
cache returns exactly the unmemoized results (including across threshold
evictions); and the eviction on a miss with more than
`MEMOIZE_CACHE_CLEAR_THRESHOLD` stored keys drops the whole cache, leaving
exactly the one fresh entry. -/
theorem memoize_preserves_semantics {α β : Type} [DecidableEq α]
    (fn : α → β) (T : ℕ) :
    (∀ (c : List (α × β)) (a : α), CacheOK fn c →
      (memoApply fn T c a).1 = fn a ∧ CacheOK fn (memoApply fn T c a).2) ∧
    (∀ as : List α, (runMemo fn T ([] : List (α × β)) as).1 = as.map fn) ∧
    (∀ (c : List (α × β)) (a : α), lookupKey c a = none → T < c.length →
      (memoApply fn T c a).2 = [(a, fn a)]) := by
  refine ⟨memoApply_correct fn T, ?_, ?_⟩
  · intro as
    exact (runMemo_correct fn T as [] (cacheOK_nil fn)).1
  · intro c a hmiss hT
    rw [memoApply, hmiss, cacheSet, if_pos hT]

/-- Witness for C8 at a concrete input: five calls on `Nat.succ` with
threshold 1 (the third call evicts) return exactly the unmemoized results,
and a miss on an over-threshold cache leaves the singleton fresh entry. -/
theorem memoize_preserves_semantics_witness :
    (runMemo Nat.succ 1 ([] : List (ℕ × ℕ)) [0, 1, 2, 0, 3]).1 =
      [0, 1, 2, 0, 3].map Nat.succ ∧
    lookupKey [(5, 6), (7, 8)] 9 = none ∧ 1 < [(5, 6), (7, 8)].length ∧
    (memoApply Nat.succ 1 [(5, 6), (7, 8)] 9).2 = [(9, 10)] := by
  obtain ⟨_, h2, h3⟩ := memoize_preserves_semantics Nat.succ 1
  refine ⟨h2 [0, 1, 2, 0, 3], by decide, by decide, ?_⟩
  rw [h3 [(5, 6), (7, 8)] 9 (by decide) (by decide)]

theorem inventorySpaceConsumed_eq_sum (inventory : List InventoryEntry) :
    inventorySpaceConsumed inventory =
      (inventory.map InventoryEntry.quantity).sum := by
  rw [inventorySpaceConsumed]
  have h : ∀ (l : List InventoryEntry) (init : ℚ),
      l.foldl (fun sum e => sum + e.quantity) init =
        init + (l.map InventoryEntry.quantity).sum := by
    intro l
    induction l with
    | nil => intro init; simp
    | cons e rest ih =>
      intro init
      rw [List.foldl_cons, ih, List.map_cons, List.sum_cons]
      ring
  rw [h]
  ring

/-- Claim C9: `inventorySpaceRemaining` is the JS number `Infinity`
(unlimited) whenever `inventoryLimit` is the sentinel `-1`, regardless of
the inventory; otherwise it is `inventoryLimit` minus the sum of all
entries' quantities; and `doesInventorySpaceRemain` is true exactly when
the remaining space is strictly positive (`Infinity` counting as
positive). -/
theorem inventorySpace_spec (s : InventoryState) :
    (s.inventoryLimit = -1 → inventorySpaceRemaining s = .inf) ∧
    (s.inventoryLimit ≠ -1 →
      inventorySpaceRemaining s =
        .num (s.inventoryLimit - (s.inventory.map InventoryEntry.quantity).sum)) ∧
    inventorySpaceConsumed s.inventory =
      (s.inventory.map InventoryEntry.quantity).sum ∧
    (doesInventorySpaceRemain s = true ↔
      (inventorySpaceRemaining s = .inf ∨
        ∃ q, inventorySpaceRemaining s = .num q ∧ 0 < q)) := by
  refine ⟨?_, ?_, inventorySpaceConsumed_eq_sum s.inventory, ?_⟩
  · intro h
    rw [inventorySpaceRemaining, if_pos h]
  · intro h
    rw [inventorySpaceRemaining, if_neg h, inventorySpaceConsumed_eq_sum]
  · rw [doesInventorySpaceRemain]
    cases h : inventorySpaceRemaining s with
    | num q =>
      simp only [JSNum.isPos, decide_eq_true_eq]
      constructor
      · intro hq
        exact Or.inr ⟨q, rfl, hq⟩
      · rintro (hinf | ⟨q2, hq2, hpos⟩)
        · exact absurd hinf (by simp)
        · rw [(JSNum.num.injEq _ _).mp hq2]
          exact hpos
    | inf =>
      simp [JSNum.isPos]

/-- Witness for C9 at a concrete input: with the sentinel limit `-1` and a
stuffed inventory the remaining space is `Infinity`; with limit 10 and 4
consumed it is 6. -/
theorem inventorySpace_spec_witness :
    inventorySpaceRemaining ⟨[⟨"a", 3⟩, ⟨"b", 1⟩], -1⟩ = .inf ∧
    inventorySpaceRemaining ⟨[⟨"a", 3⟩, ⟨"b", 1⟩], 10⟩ = .num 6 ∧
    doesInventorySpaceRemain ⟨[⟨"a", 3⟩, ⟨"b", 1⟩], -1⟩ = true := by
  have h1 := inventorySpace_spec ⟨[⟨"a", 3⟩, ⟨"b", 1⟩], -1⟩
  have h2 := inventorySpace_spec ⟨[⟨"a", 3⟩, ⟨"b", 1⟩], 10⟩
  refine ⟨h1.1 rfl, ?_, ?_⟩
  · rw [h2.2.1 (by norm_num)]
    norm_num
  · rw [(h1.2.2.2).mpr (Or.inl (h1.1 rfl))]

theorem purchaseInto_quantity (id : String) (inv : List InventoryEntry) :
    inventoryQuantity id (purchaseInto id inv) =
      inventoryQuantity id inv + 1 ∧
    (∀ other, other ≠ id →
      inventoryQuantity other (purchaseInto id inv) =
        inventoryQuantity other inv) ∧
    ((∀ e ∈ inv, e.id ≠ id) →
      purchaseInto id inv = inv ++ [{ id := id, quantity := 1 }]) := by
  induction inv with
  | nil =>
    refine ⟨?_, ?_, fun _ => rfl⟩
    · simp [purchaseInto, inventoryQuantity]
    · intro other hother
      have hne : ¬ (id = other) := fun h => hother h.symm
      simp [purchaseInto, inventoryQuantity, hne]
  | cons e rest ih =>
    by_cases he : e.id = id
    · refine ⟨?_, ?_, ?_⟩
      · rw [purchaseInto, if_pos he]
        simp only [inventoryQuantity, List.filter_cons]
        simp [he]
        ring
      · intro other hother
        rw [purchaseInto, if_pos he]
        have hne : ¬ e.id = other := fun h => hother (h ▸ he.symm ▸ he)
        simp only [inventoryQuantity, List.filter_cons]
        simp [hne]
      · intro hall
        exact absurd he (hall e (List.mem_cons_self e rest))
    · refine ⟨?_, ?_, ?_⟩
      · rw [purchaseInto, if_neg he]
        simp only [inventoryQuantity, List.filter_cons]
        by_cases hd : decide (e.id = id) = true
        · exact absurd (of_decide_eq_true hd) he
        · simp only [hd, if_false]
          exact (ih.1 : _)
      · intro other hother
        rw [purchaseInto, if_neg he]
        simp only [inventoryQuantity, List.filter_cons]
        by_cases hd : decide (e.id = other) = true
        · simp only [hd, if_true, List.map_cons, List.sum_cons]
          have := ih.2.1 other hother
          rw [inventoryQuantity, inventoryQuantity] at this
          rw [this]
        · simp only [hd, if_false]
          exact ih.2.1 other hother
      · intro hall
        rw [purchaseInto, if_neg he, List.cons_append]
        rw [ih.2.2 (fun e2 he2 => hall e2 (List.mem_cons_of_mem e he2))]

/-- Claim C10: `handleItemPurchase` is atomic with respect to
affordability: when the item's value (defaulting to 0) exceeds the money,
the state is returned unchanged; otherwise money decreases by exactly the
value (never below 0, given it started at 0 or more) and the item's
inventory quantity increases by exactly 1 — via a fresh quantity-1 entry
when the item was absent — with all other items' quantities unchanged. -/
theorem handleItemPurchase_atomic (item : PurchaseItem) (s : PurchaseState) :
    (s.money < item.value.getD 0 → handleItemPurchase item s = s) ∧
    (item.value.getD 0 ≤ s.money →
      (handleItemPurchase item s).money = s.money - item.value.getD 0 ∧
      inventoryQuantity item.id (handleItemPurchase item s).inventory =
        inventoryQuantity item.id s.inventory + 1 ∧
      (∀ other, other ≠ item.id →
        inventoryQuantity other (handleItemPurchase item s).inventory =
          inventoryQuantity other s.inventory) ∧
      ((∀ e ∈ s.inventory, e.id ≠ item.id) →
        (handleItemPurchase item s).inventory =
          s.inventory ++ [{ id := item.id, quantity := 1 }])) ∧
    (0 ≤ s.money → 0 ≤ (handleItemPurchase item s).money) := by
  refine ⟨?_, ?_, ?_⟩
  · intro h
    rw [handleItemPurchase, if_pos h]
  · intro h
    have hnot : ¬ s.money < item.value.getD 0 := not_lt_of_ge h
    rw [handleItemPurchase, if_neg hnot]
    obtain ⟨h1, h2, h3⟩ := purchaseInto_quantity item.id s.inventory
    exact ⟨rfl, h1, h2, h3⟩
  · intro h
    rw [handleItemPurchase]
    split_ifs with hlt
    · exact h
    · simp only
      linarith [not_lt.mp hlt]

/-- Witness for C10 at concrete inputs: a 5-cost item against 3 money is a
no-op; against 10 money it costs exactly 5 and bumps the item's quantity
from 2 to 3 while leaving the other item alone. -/
theorem handleItemPurchase_atomic_witness :
    handleItemPurchase ⟨"seed", some 5⟩ ⟨[⟨"seed", 2⟩, ⟨"ore", 1⟩], 3⟩ =
      ⟨[⟨"seed", 2⟩, ⟨"ore", 1⟩], 3⟩ ∧
    (handleItemPurchase ⟨"seed", some 5⟩ ⟨[⟨"seed", 2⟩, ⟨"ore", 1⟩], 10⟩).money = 5 ∧
    inventoryQuantity "seed"
      (handleItemPurchase ⟨"seed", some 5⟩
        ⟨[⟨"seed", 2⟩, ⟨"ore", 1⟩], 10⟩).inventory = 3 ∧
    inventoryQuantity "ore"
      (handleItemPurchase ⟨"seed", some 5⟩
        ⟨[⟨"seed", 2⟩, ⟨"ore", 1⟩], 10⟩).inventory = 1 := by
  have hno := (handleItemPurchase_atomic ⟨"seed", some 5⟩
    ⟨[⟨"seed", 2⟩, ⟨"ore", 1⟩], 3⟩).1 (by norm_num)
  have hyes := (handleItemPurchase_atomic ⟨"seed", some 5⟩
    ⟨[⟨"seed", 2⟩, ⟨"ore", 1⟩], 10⟩).2.1 (by norm_num)
  refine ⟨hno, ?_, ?_, ?_⟩
  · rw [hyes.1]
    norm_num
  · rw [hyes.2.1]
    simp [inventoryQuantity, List.filter]
    norm_num
  · rw [hyes.2.2.1 "ore" (by decide)]
    simp [inventoryQuantity, List.filter]

end Farmhand
